import Mathlib

/-!
Verification of the Spiel catalog service (NestJS/TypeORM) against its
natural-language specification.  The TypeScript sources are shallowly
embedded: the dynamic search-predicate builder (`QueryBuilder.build`),
the read service (`SpielReadService.find`, `findById`, `checkKeys`,
`checkEnums`) and the write service (`SpielWriteService.create`,
`update`, `delete`, `validateCreate`, `validateUpdate`) become pure Lean
functions over an explicit database state.  JS objects holding search
criteria become insertion-ordered association lists; TypeORM query
builders become a list of condition ASTs plus an optional take/skip
pair, where `.where` resets the condition list and `.andWhere` appends
to it (TypeORM semantics).  Thrown exceptions become `Except` errors.
-/

namespace Spiel

/-- Closed set of service errors (`exceptions.ts` plus Nest's
`NotFoundException`). -/
inductive Err where
  | notFound
  | barcodeExists (barcode : String)
  | versionInvalid (version : String)
  | versionOutdated (version : Int)
deriving DecidableEq, Repr

/-- A JS value appearing in a search-criteria object: query parameters and
GraphQL inputs deliver strings or numbers. -/
inductive CritVal where
  | str (s : String)
  | num (n : Int)
deriving DecidableEq, Repr

/-- A flat JS criteria object (`Suchkriterien`): insertion-ordered key/value
pairs with pairwise-distinct keys. -/
abbrev Suchkriterien := List (String × CritVal)

/-- Property access on a criteria object. -/
def lookupKey (crit : Suchkriterien) (k : String) : Option CritVal :=
  (crit.find? (fun kv => kv.1 == k)).map Prod.snd

/-- Numeric value of a list of decimal digits. -/
def digitsVal (ds : List Char) : Nat :=
  ds.foldl (fun a c => a * 10 + (c.toNat - 48)) 0

/-- Sign and digit-prefix part of JS `parseInt` (base 10): `none` models
`NaN`. -/
def jsParseIntCore (sign : Int) (cs : List Char) : Option Int :=
  let ds := cs.takeWhile Char.isDigit
  if ds.isEmpty then none else some (sign * (digitsVal ds : Int))

/-- JS `parseInt(s)` with radix 10: leading whitespace skipped, optional
sign, then the longest digit prefix; `NaN` (here `none`) when no digit
follows. -/
def jsParseInt (s : String) : Option Int :=
  let cs := s.data.dropWhile (fun c => c == ' ' || c == '\t' || c == '\n' || c == '\r')
  match cs with
  | '-' :: rest => jsParseIntCore (-1) rest
  | '+' :: rest => jsParseIntCore 1 rest
  | _ => jsParseIntCore 1 cs

/-- Condition AST produced by `QueryBuilder.build` (query-builder.ts):
one constructor per SQL fragment the builder can emit. -/
inductive Cond where
  /-- `name.name ilike :name` with parameter `%s%` (substring, case
  insensitive). -/
  | nameIlike (s : String)
  /-- `spiel.rating >= n`. -/
  | ratingGte (n : Int)
  /-- `spiel.preis <= Number(preis)`; the raw string is kept, no claim
  depends on the numeric value. -/
  | preisLte (preis : String)
  /-- `spiel.schlagwoerter like '%KW%'`. -/
  | schlagwortLike (kw : String)
  /-- `REPLACE(spiel.schlagwoerter, 'JAVASCRIPT', '') like '%JAVA%'`. -/
  | javaSchlagwort
  /-- `spiel.key = :key` equality filter from the rest properties. -/
  | eqCond (key : String) (value : CritVal)
deriving DecidableEq, Repr

/-- Page descriptor (`Pageable`): possibly-absent size and number, as seen
through the optional chaining `pageable?.size` / `pageable?.number` in
query-builder.ts. -/
structure Pageable where
  size : Option Int := none
  number : Option Int := none
deriving DecidableEq, Repr

/-- Modelled from the spec: the fixed pagination defaults exported by the
module `src/spiel/service/pageable.ts`, which is not among the sources
(only imported by query-builder.ts).  The spec says pagination "applies a
fixed page size/offset" with "fixed defaults substituted when size or
number are absent"; the concrete values are not stated and no claim
depends on them. -/
def DEFAULT_PAGE_SIZE : Int := 5

/-- Modelled from the spec: fixed default page number, see
`DEFAULT_PAGE_SIZE`. -/
def DEFAULT_PAGE_NUMBER : Int := 0

/-- Result of `QueryBuilder.build`: the accumulated WHERE conditions
(conjunction, in order) and the optional `(take, skip)` pagination pair
(`none` when `.take`/`.skip` were not applied). -/
structure BuiltQuery where
  conds : List Cond
  takeSkip : Option (Int × Int)
deriving DecidableEq, Repr

/-- The seven keys destructured by name in `QueryBuilder.build`; all
remaining keys land in `restProps`. -/
def destructuredKeys : List String :=
  ["name", "rating", "preis", "javascript", "typescript", "java", "python"]

/-- TypeORM `queryBuilder.where c`: overrides all previously set WHERE
conditions. -/
def whereReset (_conds : List Cond) (c : Cond) : List Cond := [c]

/-- TypeORM `queryBuilder.andWhere c`: conjunctively appends. -/
def andWhere (conds : List Cond) (c : Cond) : List Cond := conds ++ [c]

/-- Shallow embedding of `QueryBuilder.build` (query-builder.ts lines
104-244).  The state is the pair (conditions, useWhere); each branch
mirrors the corresponding `if` of the source: the `name`, `rating` and
`preis` branches call `.where` unconditionally, the keyword branches and
the rest-properties loop choose `.where`/`.andWhere` by the `useWhere`
flag.  Finally `.take`/`.skip` are applied unless `pageable?.size === 0`. -/
def build (crit : Suchkriterien) (pageable : Pageable) : BuiltQuery :=
  let name := lookupKey crit "name"
  let rating := lookupKey crit "rating"
  let preis := lookupKey crit "preis"
  let javascript := lookupKey crit "javascript"
  let typescript := lookupKey crit "typescript"
  let java := lookupKey crit "java"
  let python := lookupKey crit "python"
  let restProps := crit.filter (fun kv => !(destructuredKeys.contains kv.1))
  let s0 : List Cond × Bool := ([], true)
  -- if (name !== undefined && typeof name === 'string') queryBuilder.where(...)
  let s1 :=
    match name with
    | some (CritVal.str s) => (whereReset s0.1 (Cond.nameIlike s), false)
    | _ => s0
  -- if (rating !== undefined) { parseInt for strings; skipped when NaN } queryBuilder.where(...)
  let s2 :=
    match rating with
    | some (CritVal.str s) =>
      match jsParseInt s with
      | some n => (whereReset s1.1 (Cond.ratingGte n), false)
      | none => s1
    | some (CritVal.num n) => (whereReset s1.1 (Cond.ratingGte n), false)
    | none => s1
  -- if (preis !== undefined && typeof preis === 'string') queryBuilder.where(...)
  let s3 :=
    match preis with
    | some (CritVal.str s) => (whereReset s2.1 (Cond.preisLte s), false)
    | _ => s2
  -- if (javascript === 'true') useWhere ? where : andWhere
  let s4 :=
    if javascript = some (CritVal.str "true") then
      (if s3.2 then whereReset s3.1 (Cond.schlagwortLike "JAVASCRIPT")
       else andWhere s3.1 (Cond.schlagwortLike "JAVASCRIPT"), false)
    else s3
  -- if (typescript === 'true') useWhere ? where : andWhere
  let s5 :=
    if typescript = some (CritVal.str "true") then
      (if s4.2 then whereReset s4.1 (Cond.schlagwortLike "TYPESCRIPT")
       else andWhere s4.1 (Cond.schlagwortLike "TYPESCRIPT"), false)
    else s4
  -- if (java === 'true') useWhere ? where : andWhere, with REPLACE(...,'JAVASCRIPT','')
  let s6 :=
    if java = some (CritVal.str "true") then
      (if s5.2 then whereReset s5.1 Cond.javaSchlagwort
       else andWhere s5.1 Cond.javaSchlagwort, false)
    else s5
  -- if (python === 'true') useWhere ? where : andWhere
  let s7 :=
    if python = some (CritVal.str "true") then
      (if s6.2 then whereReset s6.1 (Cond.schlagwortLike "PYTHON")
       else andWhere s6.1 (Cond.schlagwortLike "PYTHON"), false)
    else s6
  -- Object.entries(restProps).forEach: useWhere ? where : andWhere
  let s8 := restProps.foldl
    (fun s kv =>
      (if s.2 then whereReset s.1 (Cond.eqCond kv.1 kv.2)
       else andWhere s.1 (Cond.eqCond kv.1 kv.2), false))
    s7
  if pageable.size = some 0 then
    { conds := s8.1, takeSkip := none }
  else
    let size := pageable.size.getD DEFAULT_PAGE_SIZE
    let number := pageable.number.getD DEFAULT_PAGE_NUMBER
    { conds := s8.1, takeSkip := some (size, number * size) }

/-! ### Keyword-condition semantics (SQL `LIKE` and `REPLACE`) -/

/-- Whether `pat` occurs as a contiguous substring of `text`
(SQL `text LIKE '%pat%'`, case sensitive). -/
def listContains (text pat : List Char) : Bool :=
  match text with
  | [] => pat.isEmpty
  | c :: rest => pat.isPrefixOf (c :: rest) || listContains rest pat

/-- SQL `LIKE '%pat%'` on strings. -/
def likeContains (text pat : String) : Bool :=
  listContains text.data pat.data

/-- Fuel-indexed left-to-right non-overlapping replacement of `pat` by
`sub` in `cs` (fuel is consumed one unit per examined character). -/
def replaceAllFuel (fuel : Nat) (cs pat sub : List Char) : List Char :=
  match fuel, cs with
  | 0, rest => rest
  | _ + 1, [] => []
  | fuel + 1, c :: rest =>
    if pat.isPrefixOf (c :: rest) then
      sub ++ replaceAllFuel fuel (List.drop (pat.length - 1) rest) pat sub
    else
      c :: replaceAllFuel fuel rest pat sub

/-- SQL `REPLACE(text, pat, sub)`: every occurrence of `pat` replaced by
`sub`, scanning left to right; with an empty pattern the text is
returned unchanged. -/
def strReplace (text pat sub : String) : String :=
  if pat.data.isEmpty then text
  else String.mk (replaceAllFuel text.data.length text.data pat.data sub.data)

/-- Evaluation of a builder condition against the raw text of the
`schlagwoerter` column; conditions over other columns return `none`. -/
def evalKeywordCond (blob : String) : Cond → Option Bool
  | Cond.schlagwortLike kw => some (likeContains blob kw)
  | Cond.javaSchlagwort => some (likeContains (strReplace blob "JAVASCRIPT" "") "JAVA")
  | _ => none

/-! ### Read service -/

/-- Own property names of `new Spiel()` (spiel.entity.ts): all declared
instance fields in declaration order, plus the `toString` arrow-function
property; computed by `Object.getOwnPropertyNames` in the
`SpielReadService` constructor. -/
def spielProps : List String :=
  ["id", "version", "barcode", "rating", "art", "preis", "rabatt",
   "lieferbar", "datum", "homepage", "schlagwoerter", "name", "bilder",
   "file", "erzeugt", "aktualisiert", "toString"]

/-- The per-key test inside `SpielReadService.#checkKeys`: a key is invalid
when it is neither a `Spiel` property nor one of the four keyword flags. -/
def invalidKey (key : String) : Bool :=
  !(spielProps.contains key) && key != "javascript" && key != "typescript"
    && key != "java" && key != "python"

/-- `SpielReadService.#checkKeys`: forEach over the keys, flipping
`validKeys` to false on the first invalid key. -/
def checkKeys (keys : List String) : Bool :=
  keys.foldl (fun validKeys key => if invalidKey key then false else validKeys) true

/-- `SpielReadService.#checkEnums`: the `art` criterion, when present, must
be one of the strings EPUB, HARDCOVER, PAPERBACK. -/
def checkEnums (crit : Suchkriterien) : Bool :=
  match lookupKey crit "art" with
  | none => true
  | some v =>
    v == CritVal.str "EPUB" || v == CritVal.str "HARDCOVER"
      || v == CritVal.str "PAPERBACK"

/-- Outcome of `SpielReadService.find` up to the database round trip: either
a thrown error, or the query handed to the database (`queryAll` for the
no-criteria `#findAll` path). -/
inductive FindOutcome where
  | failure (e : Err)
  | query (q : BuiltQuery)
  | queryAll (q : BuiltQuery)
deriving DecidableEq, Repr

/-- Shallow embedding of `SpielReadService.find`: missing or empty criteria
go to `#findAll`; otherwise invalid keys or an invalid `art` enum throw
`NotFoundException('Ungueltige Suchkriterien')` before any query is
issued; otherwise the built query is executed. -/
def find (crit : Option Suchkriterien) (pageable : Pageable) : FindOutcome :=
  match crit with
  | none => FindOutcome.queryAll (build [] pageable)
  | some crit =>
    if crit.length = 0 then FindOutcome.queryAll (build [] pageable)
    else if (!checkKeys (crit.map Prod.fst)) || (!checkEnums crit) then
      FindOutcome.failure Err.notFound
    else FindOutcome.query (build crit pageable)

/-! ### Write service state -/

/-- A persisted catalog row (table `spiel` joined with its one-to-one
`name` record; the scalar columns of spiel.entity.ts). -/
structure SpielRow where
  id : Nat
  version : Nat
  barcode : String
  rating : Int
  art : Option String
  preis : String
  rabatt : String
  lieferbar : Bool
  datum : Option String
  homepage : Option String
  schlagwoerter : List String
  name : String
deriving DecidableEq, Repr

/-- Database state: the `spiel` rows and the next generated identity value
(DDL: `GENERATED ALWAYS AS IDENTITY`). -/
structure Db where
  rows : List SpielRow
  nextId : Nat
deriving DecidableEq, Repr

/-- Well-formedness of a database state: every row id is below the identity
counter.  This holds in every state reachable from the empty database. -/
def DbWF (db : Db) : Prop := ∀ r ∈ db.rows, r.id < db.nextId

/-- First row with the given id, if any. -/
def rowById (db : Db) (id : Nat) : Option SpielRow :=
  db.rows.find? (fun r => r.id == id)

/-- `SpielReadService.findById` restricted to row lookup: throws
`NotFoundException` when no row has the id. -/
def findById (db : Db) (id : Nat) : Except Err SpielRow :=
  match rowById db id with
  | some r => Except.ok r
  | none => Except.error Err.notFound

/-- Payload of `SpielWriteService.create` as produced by the DTO
conversion: all scalar columns plus the display name. -/
structure SpielNeu where
  barcode : String
  rating : Int
  art : Option String
  preis : String
  rabatt : String
  lieferbar : Bool
  datum : Option String
  homepage : Option String
  schlagwoerter : List String
  name : String
deriving DecidableEq, Repr

/-- The row inserted for a create payload: the version column starts at
zero (DDL: `version integer NOT NULL DEFAULT 0`). -/
def newRow (id : Nat) (neu : SpielNeu) : SpielRow :=
  { id := id, version := 0, barcode := neu.barcode, rating := neu.rating,
    art := neu.art, preis := neu.preis, rabatt := neu.rabatt,
    lieferbar := neu.lieferbar, datum := neu.datum,
    homepage := neu.homepage, schlagwoerter := neu.schlagwoerter,
    name := neu.name }

/-- `repo.existsBy({ barcode })` in `#validateCreate`. -/
def existsByBarcode (db : Db) (barcode : String) : Bool :=
  db.rows.any (fun r => r.barcode == barcode)

/-- Observable side effects of a write operation, in order. -/
inductive Event where
  | insertRow (id : Nat)
  | sendMail (id : Nat)
deriving DecidableEq, Repr

/-- Shallow embedding of `SpielWriteService.create`: `#validateCreate`
throws `BarcodeExistsException` when the barcode already exists;
otherwise the row is saved and afterwards `#sendmail` notifies about the
persisted row.  The event trace records the order. -/
def create (db : Db) (neu : SpielNeu) : Except Err Nat × Db × List Event :=
  if existsByBarcode db neu.barcode then
    (Except.error (Err.barcodeExists neu.barcode), db, [])
  else
    (Except.ok db.nextId,
     { rows := db.rows ++ [newRow db.nextId neu], nextId := db.nextId + 1 },
     [Event.insertRow db.nextId, Event.sendMail db.nextId])

/-- Update payload from `#spielUpdateDtoToSpiel`: a field is `none` when
the incoming object carries `undefined` there (id, version, name, bilder
are always `undefined` on the update path and therefore absent here). -/
structure SpielPatch where
  barcode : Option String := none
  rating : Option Int := none
  art : Option String := none
  preis : Option String := none
  rabatt : Option String := none
  lieferbar : Option Bool := none
  datum : Option String := none
  homepage : Option String := none
  schlagwoerter : Option (List String) := none
deriving DecidableEq, Repr

/-- `repo.merge(spielDb, spiel)`: defined incoming values override the
stored ones, `undefined` values leave them unchanged; id and version are
never part of the patch. -/
def mergeRow (dbRow : SpielRow) (p : SpielPatch) : SpielRow :=
  { dbRow with
    barcode := p.barcode.getD dbRow.barcode,
    rating := p.rating.getD dbRow.rating,
    art := (p.art.map some).getD dbRow.art,
    preis := p.preis.getD dbRow.preis,
    rabatt := p.rabatt.getD dbRow.rabatt,
    lieferbar := p.lieferbar.getD dbRow.lieferbar,
    datum := (p.datum.map some).getD dbRow.datum,
    homepage := (p.homepage.map some).getD dbRow.homepage,
    schlagwoerter := p.schlagwoerter.getD dbRow.schlagwoerter }

/-- `SpielWriteService.VERSION_PATTERN.test versionStr` for the regex
`/^"\d{1,3}"/u`: a double quote, one to three digits, a double quote,
anchored at the start of the string only. -/
def versionPatternTest (s : String) : Bool :=
  match s.data with
  | '"' :: c1 :: rest1 =>
    c1.isDigit &&
      (match rest1 with
       | '"' :: _ => true
       | c2 :: rest2 =>
         c2.isDigit &&
           (match rest2 with
            | '"' :: _ => true
            | c3 :: rest3 =>
              c3.isDigit &&
                (match rest3 with
                 | '"' :: _ => true
                 | _ => false)
            | [] => false)
       | [] => false)
  | _ => false

/-- JS `versionStr.slice(1, -1)`: drop the first and the last character. -/
def sliceDropEnds (s : String) : String :=
  String.mk ((s.data.drop 1).dropLast)

/-- Shallow embedding of `SpielWriteService.#validateUpdate`: reject the
version token unless it matches `VERSION_PATTERN`; then look the row up
(`findById` throws for a missing id); then throw
`VersionOutdatedException` when the parsed version is strictly below the
stored one.  JS `NaN < n` is false, so an unparsable version (impossible
after the pattern test) falls through to success. -/
def validateUpdate (db : Db) (id : Nat) (versionStr : String) : Except Err SpielRow :=
  if versionPatternTest versionStr = false then
    Except.error (Err.versionInvalid versionStr)
  else
    match findById db id with
    | Except.error e => Except.error e
    | Except.ok spielDb =>
      match jsParseInt (sliceDropEnds versionStr) with
      | some v =>
        if v < (spielDb.version : Int) then
          Except.error (Err.versionOutdated v)
        else Except.ok spielDb
      | none => Except.ok spielDb

/-- Shallow embedding of `SpielWriteService.update`: an undefined id throws
`NotFoundException`; then `#validateUpdate`; on success the stored row is
merged with the patch and saved, the ORM `@VersionColumn` increments the
version by one, and the new version is returned. -/
def update (db : Db) (id : Option Nat) (patch : SpielPatch) (versionStr : String) :
    Except Err Nat × Db :=
  match id with
  | none => (Except.error Err.notFound, db)
  | some id =>
    match validateUpdate db id versionStr with
    | Except.error e => (Except.error e, db)
    | Except.ok spielDb =>
      let updated : SpielRow :=
        { mergeRow spielDb patch with version := (mergeRow spielDb patch).version + 1 }
      (Except.ok updated.version,
       { db with rows := db.rows.map (fun r => if r.id == id then updated else r) })

/-- Shallow embedding of `SpielWriteService.delete`: first
`findById({ id, mitBilder: true })`, which throws `NotFoundException`
when the id does not exist; then, inside one transaction, the dependent
rows and the spiel row are deleted and `affected > 0` is returned. -/
def delete (db : Db) (id : Nat) : Except Err Bool × Db :=
  match findById db id with
  | Except.error e => (Except.error e, db)
  | Except.ok _ =>
    let affected := db.rows.countP (fun r => r.id == id)
    (Except.ok (decide (0 < affected)),
     { db with rows := db.rows.filter (fun r => r.id != id) })

/-! ### Spec-side definitions and concrete inputs -/

/-- Spec-side reading of claim C3's strict version token: a decimal number
wrapped in double quotes with nothing else in the string. -/
def isStrictQuotedNumber (s : String) : Bool :=
  match s.data with
  | '"' :: rest =>
    match rest.getLast? with
    | some '"' => !(rest.dropLast.isEmpty) && rest.dropLast.all Char.isDigit
    | _ => false
  | _ => false

/-- A one-row database: id 1, version 0, barcode b1. -/
def row1 : SpielRow :=
  { id := 1, version := 0, barcode := "b1", rating := 3, art := some "BRETTSPIEL",
    preis := "11.10", rabatt := "0.011", lieferbar := true, datum := none,
    homepage := none, schlagwoerter := ["JAVASCRIPT"], name := "Alpha" }

/-- Concrete database holding exactly `row1`. -/
def db1 : Db := { rows := [row1], nextId := 2 }

/-- The empty database. -/
def db0 : Db := { rows := [], nextId := 1000 }

/-- An update payload leaving every field undefined. -/
def patchNone : SpielPatch := {}

/-- A concrete create payload with a fresh barcode. -/
def neu1 : SpielNeu :=
  { barcode := "b2", rating := 1, art := none, preis := "2.20",
    rabatt := "0.022", lieferbar := false, datum := none, homepage := none,
    schlagwoerter := [], name := "Beta" }

/-- A concrete create payload whose barcode collides with `row1`. -/
def neuDup : SpielNeu :=
  { barcode := "b1", rating := 1, art := none, preis := "2.20",
    rabatt := "0.022", lieferbar := false, datum := none, homepage := none,
    schlagwoerter := [], name := "Gamma" }

end Spiel

namespace Spiel

/-! ### Helper lemmas -/

/-- Once the forEach of `#checkKeys` has flipped the flag to false it stays
false. -/
theorem checkFoldStaysFalse (keys : List String) :
    keys.foldl (fun validKeys key => if invalidKey key then false else validKeys) false
      = false := by
  induction keys with
  | nil => rfl
  | cons a as ih =>
    rw [List.foldl_cons, ite_self]
    exact ih

/-- The forEach of `#checkKeys` returns false whenever some key is
invalid, whatever the accumulator. -/
theorem checkFoldFalseOfMem (keys : List String) (acc : Bool) (k : String)
    (hk : k ∈ keys) (hbad : invalidKey k = true) :
    keys.foldl (fun validKeys key => if invalidKey key then false else validKeys) acc
      = false := by
  induction keys generalizing acc with
  | nil => cases hk
  | cons a as ih =>
    rw [List.foldl_cons]
    rcases List.mem_cons.mp hk with h | h
    · subst h
      rw [hbad, if_pos rfl]
      exact checkFoldStaysFalse as
    · exact ih _ h

/-- Replacing the rows whose id is `i` makes the lookup at `i` return the
replacement, provided a row with id `i` exists. -/
theorem findMapReplaceSelf (rows : List SpielRow) (i : Nat) (nr : SpielRow)
    (hnr : nr.id = i) (r : SpielRow)
    (h : rows.find? (fun x => x.id == i) = some r) :
    (rows.map (fun x => if x.id == i then nr else x)).find? (fun x => x.id == i)
      = some nr := by
  induction rows with
  | nil => simp at h
  | cons a as ih =>
    by_cases hai : a.id = i
    · simp only [List.map_cons]
      rw [if_pos (show (a.id == i) = true by simp [hai])]
      rw [List.find?_cons_of_pos _ (by simp [hnr])]
    · rw [List.find?_cons_of_neg _ (by simp [hai])] at h
      simp only [List.map_cons]
      rw [if_neg (show ((a.id == i) = true) -> False by simp [hai])]
      rw [List.find?_cons_of_neg _ (by simp [hai])]
      exact ih h

/-- Replacing the rows whose id is `i` does not change the lookup at any
other id. -/
theorem findMapReplaceOther (rows : List SpielRow) (i j : Nat) (nr : SpielRow)
    (hnr : nr.id = i) (hij : j ≠ i) :
    (rows.map (fun x => if x.id == i then nr else x)).find? (fun x => x.id == j)
      = rows.find? (fun x => x.id == j) := by
  induction rows with
  | nil => rfl
  | cons a as ih =>
    simp only [List.map_cons]
    by_cases hai : a.id = i
    · have hnj : ¬(nr.id = j) := by rw [hnr]; exact fun he => hij he.symm
      have haj : ¬(a.id = j) := by rw [hai]; exact fun he => hij he.symm
      rw [if_pos (show (a.id == i) = true by simp [hai])]
      rw [List.find?_cons_of_neg _ (by simp [hnj]),
        List.find?_cons_of_neg _ (by simp [haj])]
      exact ih
    · rw [if_neg (show ((a.id == i) = true) -> False by simp [hai])]
      by_cases haj : a.id = j
      · rw [List.find?_cons_of_pos _ (by simp [haj]),
          List.find?_cons_of_pos _ (by simp [haj])]
      · rw [List.find?_cons_of_neg _ (by simp [haj]),
          List.find?_cons_of_neg _ (by simp [haj])]
        exact ih

/-- Removing the rows whose id is `i` does not change the lookup at any
other id. -/
theorem findFilterOther (rows : List SpielRow) (i j : Nat) (hij : j ≠ i) :
    (rows.filter (fun x => x.id != i)).find? (fun x => x.id == j)
      = rows.find? (fun x => x.id == j) := by
  induction rows with
  | nil => rfl
  | cons a as ih =>
    by_cases hai : a.id = i
    · have haj : ¬(a.id = j) := by rw [hai]; exact fun he => hij he.symm
      rw [List.filter_cons_of_neg (by simp [hai])]
      rw [List.find?_cons_of_neg _ (by simp [haj])]
      exact ih
    · rw [List.filter_cons_of_pos (by simp [hai])]
      by_cases haj : a.id = j
      · rw [List.find?_cons_of_pos _ (by simp [haj]),
          List.find?_cons_of_pos _ (by simp [haj])]
      · rw [List.find?_cons_of_neg _ (by simp [haj]),
          List.find?_cons_of_neg _ (by simp [haj])]
        exact ih

/-- The merge of `#repo.merge` never touches the id column. -/
theorem mergeRow_id (r : SpielRow) (p : SpielPatch) : (mergeRow r p).id = r.id := rfl

/-- The merge of `#repo.merge` never touches the version column (the patch
built by `#spielUpdateDtoToSpiel` always has `version: undefined`). -/
theorem mergeRow_version (r : SpielRow) (p : SpielPatch) :
    (mergeRow r p).version = r.version := rfl

/-- A successful `#validateUpdate` returns exactly the stored row. -/
theorem validateUpdate_ok_rowById (db : Db) (id : Nat) (vstr : String) (r : SpielRow)
    (h : validateUpdate db id vstr = Except.ok r) :
    rowById db id = some r := by
  by_cases hp : versionPatternTest vstr = false
  · rw [validateUpdate, if_pos hp] at h
    exact absurd h (by simp)
  · rw [validateUpdate, if_neg hp] at h
    cases h2 : rowById db id with
    | none =>
      simp [findById, h2] at h
    | some row =>
      simp only [findById, h2] at h
      cases h3 : jsParseInt (sliceDropEnds vstr) with
      | none =>
        simp only [h3, Except.ok.injEq] at h
        rw [h]
      | some v =>
        simp only [h3] at h
        by_cases h4 : v < (row.version : Int)
        · rw [if_pos h4] at h
          exact absurd h (by simp)
        · rw [if_neg h4] at h
          simp only [Except.ok.injEq] at h
          rw [h]

/-- The invalid-version failure of `#validateUpdate` occurs exactly when
the version token fails `VERSION_PATTERN`. -/
theorem validateUpdate_invalid_iff (db : Db) (id : Nat) (vstr : String) :
    validateUpdate db id vstr = Except.error (Err.versionInvalid vstr)
      ↔ versionPatternTest vstr = false := by
  by_cases hp : versionPatternTest vstr = false
  · rw [validateUpdate, if_pos hp]
    simp [hp]
  · rw [validateUpdate, if_neg hp]
    constructor
    · intro h
      exfalso
      cases h2 : rowById db id with
      | none =>
        simp [findById, h2] at h
      | some row =>
        simp only [findById, h2] at h
        cases h3 : jsParseInt (sliceDropEnds vstr) with
        | none =>
          simp [h3] at h
        | some v =>
          simp only [h3] at h
          by_cases h4 : v < (row.version : Int)
          · rw [if_pos h4] at h
            simp at h
          · rw [if_neg h4] at h
            simp at h
    · intro h
      exact absurd h hp

end Spiel

namespace Spiel

/-! ### Claim theorems -/

/-- C1: the claim says every criteria object with two or more recognized
keys yields the conjunction of all recognized predicates.  The code
violates this: the rating branch (and likewise the preis branch) calls
`.where` unconditionally, which in TypeORM replaces all previously set
conditions, so for the criteria object with name and rating the name
predicate is discarded and the produced query filters by rating alone.
This contradicts the evident intent of the source's own useWhere flag
discipline (the flag is maintained by exactly these branches and consulted
by every later branch), so it is recorded as a code bug. -/
theorem c1_rating_where_discards_name_predicate :
    (build [("name", CritVal.str "a"), ("rating", CritVal.num 5)]
        { size := some 0, number := none }).conds = [Cond.ratingGte 5] ∧
    Cond.nameIlike "a" ∉ (build [("name", CritVal.str "a"), ("rating", CritVal.num 5)]
        { size := some 0, number := none }).conds := by
  refine ⟨rfl, ?_⟩
  rw [show (build [("name", CritVal.str "a"), ("rating", CritVal.num 5)]
      { size := some 0, number := none }).conds = [Cond.ratingGte 5] from rfl]
  simp

/-- C2: the claim says deleting a nonexistent id completes without error
and returns false, and that a second delete of the same id is error-free.
The code violates this: `delete` first calls `findById`, which throws
`NotFoundException` when the id is absent, so deleting a missing id
throws, and after one successful delete the second call throws as well.
This contradicts the method's own doc comment ("true, falls das Spiel
vorhanden war und geloescht wurde. Sonst false."), so it is recorded as a
code bug. -/
theorem c2_delete_nonexistent_id_throws :
    (delete db0 1).1 = Except.error Err.notFound ∧
    (delete db1 1).1 = Except.ok true ∧
    (delete (delete db1 1).2 1).1 = Except.error Err.notFound :=
  ⟨rfl, rfl, rfl⟩

/-- C3 counterexample: the claim says the update fails with invalid-version
exactly when the token is not a quoted decimal number with nothing else in
the string.  Both directions fail on the code, whose pattern is anchored
only at the start and caps the digits at three: the token consisting of a
quoted 1 followed by a stray x is not a strict quoted number yet the
update succeeds, and the quoted four-digit number 1234 is a strict quoted
number yet the update fails with invalid-version. -/
theorem c3_strict_pattern_counterexample :
    isStrictQuotedNumber "\"1\"x" = false ∧
    (update db1 (some 1) patchNone "\"1\"x").1 = Except.ok 1 ∧
    isStrictQuotedNumber "\"1234\"" = true ∧
    (update db1 (some 1) patchNone "\"1234\"").1
      = Except.error (Err.versionInvalid "\"1234\"") :=
  ⟨rfl, rfl, rfl, rfl⟩

/-- C3 amended: for every update call with a supplied id, the update fails
with the invalid-version failure if and only if the version token does not
begin with a double-quoted number of one to three digits (the pattern
`^"\d{1,3}"` is anchored at the start only, so trailing characters are
accepted and quoted numbers of four or more digits are rejected); every
token failing the pattern is rejected before any state change. -/
theorem c3_version_pattern_gate (db : Db) (id : Nat) (patch : SpielPatch)
    (vstr : String) :
    ((update db (some id) patch vstr).1 = Except.error (Err.versionInvalid vstr)
      ↔ versionPatternTest vstr = false) ∧
    (versionPatternTest vstr = false →
      update db (some id) patch vstr = (Except.error (Err.versionInvalid vstr), db)) := by
  have hiff := validateUpdate_invalid_iff db id vstr
  constructor
  · cases hval : validateUpdate db id vstr with
    | error e =>
      simp only [update, hval]
      constructor
      · intro h
        have he : e = Err.versionInvalid vstr := by
          injection h
        exact hiff.mp (he ▸ hval)
      · intro h
        have := hiff.mpr h
        rw [hval] at this
        injection this with he
        rw [he]
    | ok r =>
      simp only [update, hval]
      constructor
      · intro h
        exact absurd h (by simp)
      · intro h
        have := hiff.mpr h
        rw [hval] at this
        exact absurd this (by simp)
  · intro h
    have := hiff.mpr h
    simp only [update, this]

/-- C3 witness: concrete application of the amended theorem — the
malformed token `x1x` is rejected with invalid-version and the database
is unchanged. -/
theorem c3_version_pattern_gate_witness :
    versionPatternTest "x1x" = false ∧
    update db1 (some 1) patchNone "x1x"
      = (Except.error (Err.versionInvalid "x1x"), db1) :=
  ⟨rfl, (c3_version_pattern_gate db1 1 patchNone "x1x").2 rfl⟩

/-- C5: for every nonempty criteria object containing a key that is
neither an own property of the Spiel entity nor one of the four keyword
flags, `find` throws the not-found failure before any query is issued. -/
theorem c5_unknown_key_not_found (crit : Suchkriterien) (p : Pageable)
    (k : String) (v : CritVal)
    (hmem : (k, v) ∈ crit)
    (hprop : spielProps.contains k = false)
    (hflag : k ∉ ["javascript", "typescript", "java", "python"]) :
    find (some crit) p = FindOutcome.failure Err.notFound := by
  simp only [List.mem_cons, List.not_mem_nil, or_false, not_or] at hflag
  obtain ⟨h1, h2, h3, h4⟩ := hflag
  have hbad : invalidKey k = true := by
    have hprop2 : k ∉ spielProps := by simpa using hprop
    simp [invalidKey, hprop2, h1, h2, h3, h4]
  have hkeys : checkKeys (crit.map Prod.fst) = false :=
    checkFoldFalseOfMem _ _ k (List.mem_map_of_mem Prod.fst hmem) hbad
  have hne : ¬(crit.length = 0) := by
    intro h
    rw [List.length_eq_zero] at h
    subst h
    cases hmem
  simp [find, hne, hkeys]

/-- C5 witness: the single unrecognized key foo makes the search fail. -/
theorem c5_unknown_key_not_found_witness :
    ("foo", CritVal.str "x") ∈ [("foo", CritVal.str "x")] ∧
    spielProps.contains "foo" = false ∧
    "foo" ∉ ["javascript", "typescript", "java", "python"] ∧
    find (some [("foo", CritVal.str "x")]) { size := none, number := none }
      = FindOutcome.failure Err.notFound :=
  ⟨by simp, by rfl, by simp, c5_unknown_key_not_found _ _ "foo" (CritVal.str "x")
    (by simp) (by rfl) (by simp)⟩

/-- C9: the four keyword flags compile to case-sensitive LIKE substring
conditions over the schlagwoerter blob, conjunctively combined; the java
flag compiles to the REPLACE-based condition, which holds on a blob
exactly when the blob with every occurrence of JAVASCRIPT removed still
contains JAVA.  Hence a blob whose only relevant keyword is JAVASCRIPT
does not match the java flag, a blob carrying both JAVA and JAVASCRIPT
does, and a lowercase blob does not match at all. -/
theorem c9_keyword_flag_semantics (blob : String) :
    (build [("javascript", CritVal.str "true"), ("typescript", CritVal.str "true"),
            ("java", CritVal.str "true"), ("python", CritVal.str "true")]
        { size := some 0, number := none }).conds
      = [Cond.schlagwortLike "JAVASCRIPT", Cond.schlagwortLike "TYPESCRIPT",
         Cond.javaSchlagwort, Cond.schlagwortLike "PYTHON"] ∧
    evalKeywordCond blob Cond.javaSchlagwort
      = some (likeContains (strReplace blob "JAVASCRIPT" "") "JAVA") ∧
    evalKeywordCond "JAVASCRIPT" Cond.javaSchlagwort = some false ∧
    evalKeywordCond "JAVA,JAVASCRIPT" Cond.javaSchlagwort = some true ∧
    evalKeywordCond "javascript,java" Cond.javaSchlagwort = some false ∧
    evalKeywordCond "JAVASCRIPT" (Cond.schlagwortLike "JAVASCRIPT") = some true :=
  ⟨rfl, rfl, rfl, rfl, rfl, rfl⟩

/-- C10: for every criteria object whose art key holds one of the entity's
actual category values, the search always fails with the not-found
(invalid search criteria) failure, because `#checkEnums` only accepts
EPUB, HARDCOVER and PAPERBACK. -/
theorem c10_valid_art_always_fails (crit : Suchkriterien) (p : Pageable) (a : String)
    (hart : lookupKey crit "art" = some (CritVal.str a))
    (ha : a = "BRETTSPIEL" ∨ a = "COMPUTERSPIEL" ∨ a = "ACTIONSPIEL") :
    find (some crit) p = FindOutcome.failure Err.notFound := by
  have henum : checkEnums crit = false := by
    unfold checkEnums
    rw [hart]
    rcases ha with rfl | rfl | rfl <;> rfl
  have hne : ¬(crit.length = 0) := by
    intro h
    rw [List.length_eq_zero] at h
    subst h
    simp [lookupKey] at hart
  simp [find, hne, henum]

/-- C10 witness: searching by the category BRETTSPIEL fails. -/
theorem c10_valid_art_always_fails_witness :
    lookupKey [("art", CritVal.str "BRETTSPIEL")] "art"
      = some (CritVal.str "BRETTSPIEL") ∧
    find (some [("art", CritVal.str "BRETTSPIEL")]) { size := none, number := none }
      = FindOutcome.failure Err.notFound :=
  ⟨rfl, c10_valid_art_always_fails _ _ "BRETTSPIEL" rfl (Or.inl rfl)⟩

end Spiel

namespace Spiel

/-- C4: for every update of an existing item with a well-formed version
token: a numeric version strictly below the stored one fails with the
outdated-version failure and leaves the database unchanged; otherwise the
stored row is merged with the incoming field values, persisted, and the
incremented version number is returned. -/
theorem c4_optimistic_update (db : Db) (id : Nat) (r : SpielRow) (patch : SpielPatch)
    (vstr : String) (v : Int)
    (hfind : findById db id = Except.ok r)
    (hpat : versionPatternTest vstr = true)
    (hv : jsParseInt (sliceDropEnds vstr) = some v) :
    (v < (r.version : Int) →
      update db (some id) patch vstr = (Except.error (Err.versionOutdated v), db)) ∧
    ((r.version : Int) ≤ v →
      update db (some id) patch vstr =
        (Except.ok (r.version + 1),
         { db with rows := db.rows.map (fun x =>
             if x.id == id then { mergeRow r patch with version := r.version + 1 }
             else x) })) := by
  have hp : ¬(versionPatternTest vstr = false) := by simp [hpat]
  constructor
  · intro hlt
    have hval : validateUpdate db id vstr = Except.error (Err.versionOutdated v) := by
      rw [validateUpdate, if_neg hp]
      simp only [hfind, hv]
      rw [if_pos hlt]
    simp only [update, hval]
  · intro hge
    have hnlt : ¬(v < (r.version : Int)) := not_lt.mpr hge
    have hval : validateUpdate db id vstr = Except.ok r := by
      rw [validateUpdate, if_neg hp]
      simp only [hfind, hv]
      rw [if_neg hnlt]
    simp only [update, hval]
    rfl

/-- C4 witness: with stored version 0 and token version 5 the update
succeeds and returns version 1. -/
theorem c4_optimistic_update_witness :
    findById db1 1 = Except.ok row1 ∧
    (row1.version : Int) ≤ 5 ∧
    (update db1 (some 1) patchNone "\"5\"").1 = Except.ok (row1.version + 1) := by
  refine ⟨rfl, by decide, ?_⟩
  have h := (c4_optimistic_update db1 1 row1 patchNone "\"5\"" 5 rfl rfl rfl).2 (by decide)
  rw [h]

/-- C6: creation with a barcode already stored fails with the
duplicate-code failure before any insert (database unchanged, no events);
creation with a fresh barcode inserts the new row and sends the
notification email strictly after the insert. -/
theorem c6_create_duplicate_gate (db : Db) (neu : SpielNeu) :
    ((∃ r ∈ db.rows, r.barcode = neu.barcode) →
      create db neu = (Except.error (Err.barcodeExists neu.barcode), db, [])) ∧
    ((∀ r ∈ db.rows, r.barcode ≠ neu.barcode) →
      create db neu =
        (Except.ok db.nextId,
         { rows := db.rows ++ [newRow db.nextId neu], nextId := db.nextId + 1 },
         [Event.insertRow db.nextId, Event.sendMail db.nextId])) := by
  constructor
  · rintro ⟨r, hr, hb⟩
    have hex : existsByBarcode db neu.barcode = true := by
      rw [existsByBarcode, List.any_eq_true]
      exact ⟨r, hr, by simp [hb]⟩
    rw [create, if_pos hex]
  · intro h
    have hex : ¬(existsByBarcode db neu.barcode = true) := by
      intro hex
      rw [existsByBarcode, List.any_eq_true] at hex
      obtain ⟨r, hr, hb⟩ := hex
      exact h r hr (by simpa using hb)
    rw [create, if_neg hex]

/-- C6 witness: re-creating the barcode of the stored row fails without
inserting or emailing. -/
theorem c6_create_duplicate_gate_witness :
    (∃ r ∈ db1.rows, r.barcode = neuDup.barcode) ∧
    create db1 neuDup = (Except.error (Err.barcodeExists "b1"), db1, []) := by
  refine ⟨⟨row1, by simp [db1], rfl⟩, ?_⟩
  have h := (c6_create_duplicate_gate db1 neuDup).1 ⟨row1, by simp [db1], rfl⟩
  rw [h]
  rfl


/-- C8: a page size of exactly zero yields an unbounded query (no take, no
skip); otherwise take is the page size and skip is page number times page
size, with the fixed defaults substituted for absent size or number. -/
theorem c8_pagination (crit : Suchkriterien) (p : Pageable) :
    (p.size = some 0 → (build crit p).takeSkip = none) ∧
    (p.size ≠ some 0 →
      (build crit p).takeSkip
        = some (p.size.getD DEFAULT_PAGE_SIZE,
            p.number.getD DEFAULT_PAGE_NUMBER * p.size.getD DEFAULT_PAGE_SIZE)) := by
  constructor
  · intro h
    simp only [build]
    rw [if_pos h]
  · intro h
    simp only [build]
    rw [if_neg h]

/-- C8 witness: size zero gives no pagination; size 3 with page number 2
gives take 3 and skip 6. -/
theorem c8_pagination_witness :
    (({ size := some 0, number := none } : Pageable).size = some 0) ∧
    (build [] { size := some 0, number := none }).takeSkip = none ∧
    (({ size := some 3, number := some 2 } : Pageable).size ≠ some 0) ∧
    (build [] { size := some 3, number := some 2 }).takeSkip = some (3, 6) := by
  refine ⟨rfl, (c8_pagination [] _).1 rfl, by simp, ?_⟩
  have h := (c8_pagination ([] : Suchkriterien) { size := some 3, number := some 2 }).2
    (by simp)
  rw [h]
  rfl

end Spiel

namespace Spiel

/-- Shape of a successful create: fresh barcode, returned id is the
identity counter, and the new row is appended. -/
theorem create_ok_shape (db : Db) (neu : SpielNeu) (idNew : Nat)
    (h : (create db neu).1 = Except.ok idNew) :
    idNew = db.nextId ∧
    (create db neu).2.1
      = { rows := db.rows ++ [newRow db.nextId neu], nextId := db.nextId + 1 } := by
  by_cases hex : existsByBarcode db neu.barcode = true
  · rw [create, if_pos hex] at h
    exact absurd h (by simp)
  · rw [create, if_neg hex] at h
    have h2 : idNew = db.nextId := by simpa using h.symm
    refine ⟨h2, ?_⟩
    rw [create, if_neg hex]

/-- Shape of an update whose validation succeeded. -/
theorem update_ok_shape (db : Db) (id : Nat) (patch : SpielPatch) (vstr : String)
    (r : SpielRow) (hval : validateUpdate db id vstr = Except.ok r) :
    update db (some id) patch vstr
      = (Except.ok (r.version + 1),
         { db with rows := db.rows.map (fun x =>
             if x.id == id then { mergeRow r patch with version := r.version + 1 }
             else x) }) := by
  simp only [update, hval]
  rfl

/-- Shape of an update whose validation failed. -/
theorem update_error_shape (db : Db) (id : Nat) (patch : SpielPatch) (vstr : String)
    (e : Err) (hval : validateUpdate db id vstr = Except.error e) :
    update db (some id) patch vstr = (Except.error e, db) := by
  simp only [update, hval]

/-- The row found by id carries that id. -/
theorem rowById_id (db : Db) (i : Nat) (r : SpielRow) (h : rowById db i = some r) :
    r.id = i := by
  rw [rowById] at h
  simpa using List.find?_some h

/-- The row found by id is among the stored rows. -/
theorem rowById_mem (db : Db) (i : Nat) (r : SpielRow) (h : rowById db i = some r) :
    r ∈ db.rows := by
  rw [rowById] at h
  exact List.mem_of_find?_eq_some h

/-- C7: the version counter starts at zero on creation; a successful
update increments exactly the updated row's version by one and returns
it; a failed update changes nothing; update and delete leave every other
row untouched; and each create/update/delete step preserves
well-formedness, so this is a reachable-state invariant of the step
relation. -/
theorem c7_version_counter_invariant (db : Db) (hwf : DbWF db) :
    (∀ neu idNew, (create db neu).1 = Except.ok idNew →
      ∃ r, rowById (create db neu).2.1 idNew = some r ∧ r.version = 0) ∧
    (∀ neu j r, rowById db j = some r → rowById (create db neu).2.1 j = some r) ∧
    (∀ id patch vstr vNew, (update db (some id) patch vstr).1 = Except.ok vNew →
      ∃ r, rowById db id = some r ∧ vNew = r.version + 1 ∧
        rowById (update db (some id) patch vstr).2 id
          = some { mergeRow r patch with version := r.version + 1 }) ∧
    (∀ idOpt patch vstr e, (update db idOpt patch vstr).1 = Except.error e →
      (update db idOpt patch vstr).2 = db) ∧
    (∀ id patch vstr j, j ≠ id →
      rowById (update db (some id) patch vstr).2 j = rowById db j) ∧
    (∀ id j, j ≠ id → rowById (delete db id).2 j = rowById db j) ∧
    (∀ neu, DbWF (create db neu).2.1) ∧
    (∀ idOpt patch vstr, DbWF (update db idOpt patch vstr).2) ∧
    (∀ id, DbWF (delete db id).2) := by
  refine ⟨?_, ?_, ?_, ?_, ?_, ?_, ?_, ?_, ?_⟩
  · intro neu idNew h
    obtain ⟨h2, hdb⟩ := create_ok_shape db neu idNew h
    subst h2
    refine ⟨newRow db.nextId neu, ?_, rfl⟩
    rw [hdb, rowById]
    show (db.rows ++ [newRow db.nextId neu]).find? (fun x => x.id == db.nextId)
      = some (newRow db.nextId neu)
    rw [List.find?_append]
    have hnone : db.rows.find? (fun x => x.id == db.nextId) = none := by
      rw [List.find?_eq_none]
      intro x hx
      have hlt := hwf x hx
      simp only [beq_iff_eq]
      omega
    rw [hnone]
    simp [newRow]
  · intro neu j r h
    by_cases hex : existsByBarcode db neu.barcode = true
    · rw [create, if_pos hex]
      exact h
    · rw [create, if_neg hex]
      rw [rowById] at h ⊢
      show (db.rows ++ [newRow db.nextId neu]).find? (fun x => x.id == j) = some r
      rw [List.find?_append, h]
      rfl
  · intro id patch vstr vNew h
    cases hval : validateUpdate db id vstr with
    | error e =>
      rw [update_error_shape db id patch vstr e hval] at h
      exact absurd h (by simp)
    | ok r =>
      have hrow : rowById db id = some r := validateUpdate_ok_rowById db id vstr r hval
      have hid : r.id = id := rowById_id db id r hrow
      refine ⟨r, hrow, ?_, ?_⟩
      · rw [update_ok_shape db id patch vstr r hval] at h
        simpa using h.symm
      · rw [update_ok_shape db id patch vstr r hval, rowById]
        have hfind : db.rows.find? (fun x => x.id == id) = some r := by
          rw [rowById] at hrow
          exact hrow
        exact findMapReplaceSelf db.rows id _ hid r hfind
  · intro idOpt patch vstr e h
    cases idOpt with
    | none => rfl
    | some i =>
      cases hval : validateUpdate db i vstr with
      | error e2 =>
        rw [update_error_shape db i patch vstr e2 hval]
      | ok r =>
        rw [update_ok_shape db i patch vstr r hval] at h
        exact absurd h (by simp)
  · intro id patch vstr j hj
    cases hval : validateUpdate db id vstr with
    | error e =>
      rw [update_error_shape db id patch vstr e hval]
    | ok r =>
      rw [update_ok_shape db id patch vstr r hval]
      have hid : r.id = id :=
        rowById_id db id r (validateUpdate_ok_rowById db id vstr r hval)
      rw [rowById, rowById]
      exact findMapReplaceOther db.rows id j _ hid hj
  · intro i j hj
    cases hfd : findById db i with
    | error e =>
      simp only [delete, hfd]
    | ok r =>
      simp only [delete, hfd]
      rw [rowById, rowById]
      exact findFilterOther db.rows i j hj
  · intro neu
    by_cases hex : existsByBarcode db neu.barcode = true
    · rw [create, if_pos hex]
      exact hwf
    · rw [create, if_neg hex]
      intro x hx
      show x.id < db.nextId + 1
      rcases List.mem_append.mp hx with hx2 | hx2
      · have := hwf x hx2
        omega
      · rcases List.mem_singleton.mp hx2 with rfl
        exact Nat.lt_succ_self db.nextId
  · intro idOpt patch vstr
    cases idOpt with
    | none => exact hwf
    | some i =>
      cases hval : validateUpdate db i vstr with
      | error e =>
        rw [update_error_shape db i patch vstr e hval]
        exact hwf
      | ok r =>
        rw [update_ok_shape db i patch vstr r hval]
        have hmem : r ∈ db.rows :=
          rowById_mem db i r (validateUpdate_ok_rowById db i vstr r hval)
        intro x hx
        obtain ⟨y, hy, rfl⟩ := List.mem_map.mp hx
        by_cases hyi : y.id = i
        · rw [if_pos (show (y.id == i) = true by simp [hyi])]
          exact hwf r hmem
        · rw [if_neg (show ((y.id == i) = true) -> False by simp [hyi])]
          exact hwf y hy
  · intro i
    cases hfd : findById db i with
    | error e =>
      simp only [delete, hfd]
      exact hwf
    | ok r =>
      simp only [delete, hfd]
      intro x hx
      exact hwf x (List.mem_of_mem_filter hx)

/-- C7 witness: creating into the empty database yields the new row with
version zero. -/
theorem c7_version_counter_invariant_witness :
    DbWF db0 ∧
    (∃ r, rowById (create db0 neu1).2.1 1000 = some r ∧ r.version = 0) := by
  have hwf : DbWF db0 := by
    intro r hr
    simp [db0] at hr
  exact ⟨hwf, (c7_version_counter_invariant db0 hwf).1 neu1 1000 rfl⟩

end Spiel
